import Mathlib

/-!
Shallow embedding of `src/fsevent.rs` (the FSEvents backend of the rsnotify
watcher crate).

The Rust module drives the macOS FSEvents service.  We embed its state
machine and pure logic:

* the watched-path collection is a `CFMutableArray` of `CFString`s; we model
  it as a `List String`, and the `kCFCompareCaseInsensitive` comparison of
  `CFStringCompare` as equality of lower-cased strings;
* the native handles (`CFRunLoopRef` stored as `usize`, the per-run
  `StreamContextInfo` box) are modelled by `Option` fields of the watcher
  state; the numeric value of the run-loop address is immaterial to control
  flow, so the model uses `0`;
* foreign calls that can perform an out-of-bounds CF-array access
  (`CFArrayGetValueAtIndex` past the count) make the embedded operation
  return `none`: that branch is undefined behaviour in the source;
* the FSEvents callback is embedded as a pure function from the delivered
  batch of raw records to the list of events sent on the context's sender,
  together with an aborted flag (`expect`/panic in the source).

Types that live in the crate root (`super::{Error, Event, op}`) and the
flag constants of the `fsevent`/`fsevent-sys` dependencies are not part of
`src/`; they are modelled from the spec and from the dependency's public
constants, as noted on each definition.
-/

namespace RsNotify

/-- Modelled from the spec: the error kinds of the portable watcher
interface (`super::Error`).  Only `PathNotFound` ("starting a session with
zero watched paths") is produced by this module. -/
inductive Error where
  | PathNotFound
  deriving DecidableEq, Repr

/-- Modelled from the spec: the portable operation-kind bits
(`super::op::Op`), "a bit-set over {CREATE, REMOVE, RENAME, WRITE, CHMOD}". -/
inductive OpKind where
  | chmod
  | create
  | remove
  | rename
  | write
  deriving DecidableEq, Repr

/-- Modelled from the spec: the `Op` bit-set, represented by one Boolean
per operation kind. -/
structure Op where
  chmod : Bool
  create : Bool
  remove : Bool
  rename : Bool
  write : Bool
  deriving DecidableEq, Repr

/-- `op::Op::empty()`: the empty bit-set. -/
def Op.empty : Op := ⟨false, false, false, false, false⟩

/-- `Op::insert`: set one bit. -/
def Op.insert (o : Op) : OpKind → Op
  | .chmod => { o with chmod := true }
  | .create => { o with create := true }
  | .remove => { o with remove := true }
  | .rename => { o with rename := true }
  | .write => { o with write := true }

/-- Bit-set union of two `Op` values. -/
def Op.union (a b : Op) : Op :=
  ⟨a.chmod || b.chmod, a.create || b.create, a.remove || b.remove,
   a.rename || b.rename, a.write || b.write⟩

/-- The singleton bit-set. -/
def Op.single (k : OpKind) : Op := Op.empty.insert k

deriving instance DecidableEq for Except

/-- Modelled from the spec: the portable
`Event { operation: Result<OpFlags, ErrorKind>, path: Optional<Path> }`
value (`super::Event`).  Paths are platform strings. -/
structure Event where
  op : Except Error Op
  path : Option String
  deriving DecidableEq, Repr

/-! ### Native flag constants

Constants of the external `fsevent` dependency (`fse::StreamFlags`, a
`bitflags` set over `u32` mirroring the macOS
`kFSEventStreamEventFlag*` values).  The dependency is a fixed external
interface; the values below are its public constants. -/

def MUST_SCAN_SUBDIRS : Nat := 0x00000001
def USER_DROPPED : Nat := 0x00000002
def KERNEL_DROPPED : Nat := 0x00000004
def IDS_WRAPPED : Nat := 0x00000008
def HISTORY_DONE : Nat := 0x00000010
def ROOT_CHANGED : Nat := 0x00000020
def MOUNT : Nat := 0x00000040
def UNMOUNT : Nat := 0x00000080
def ITEM_CREATED : Nat := 0x00000100
def ITEM_REMOVED : Nat := 0x00000200
def INODE_META_MOD : Nat := 0x00000400
def ITEM_RENAMED : Nat := 0x00000800
def ITEM_MODIFIED : Nat := 0x00001000
def FINDER_INFO_MOD : Nat := 0x00002000
def ITEM_CHANGE_OWNER : Nat := 0x00004000
def ITEM_XATTR_MOD : Nat := 0x00008000
def IS_FILE : Nat := 0x00010000
def IS_DIR : Nat := 0x00020000
def IS_SYMLINK : Nat := 0x00040000

/-- The union of every named `StreamFlags` bit: the mask that
`StreamFlags::from_bits` accepts. -/
def streamFlagsAll : Nat := 0x0007FFFF

/-- `bitflags` `contains`: all bits of `c` are present in `flags`. -/
def containsFlag (flags c : Nat) : Bool := flags &&& c == c

/-- `translate_flags` (fsevent.rs:29-47): translate a native `StreamFlags`
bitmask into the portable `Op` bit-set, one independent test per bit. -/
def translate_flags (flags : Nat) : Op :=
  let ret := Op.empty
  let ret := if containsFlag flags ITEM_XATTR_MOD then ret.insert .chmod else ret
  let ret := if containsFlag flags ITEM_CREATED then ret.insert .create else ret
  let ret := if containsFlag flags ITEM_REMOVED then ret.insert .remove else ret
  let ret := if containsFlag flags ITEM_RENAMED then ret.insert .rename else ret
  let ret := if containsFlag flags ITEM_MODIFIED then ret.insert .write else ret
  ret

/-! ### Watcher state -/

/-- `StreamContextInfo` (fsevent.rs:49-52): the per-run data shared with
the callback: a clone of the outbound sender and the `done` receiver.
Channels are modelled by a numeric channel id; the `done` receiver of a run
carries no data and is left abstract. -/
structure StreamContextInfo where
  sender : Nat
  deriving DecidableEq, Repr

/-- `FsEventWatcher` (fsevent.rs:19-27).  `paths` models the
`CFMutableArrayRef` of watched-path `CFString`s; `runloop` the
`Option<usize>` holding the background thread's `CFRunLoopRef` address;
`context` the `Option<Box<StreamContextInfo>>`.  The `latency` field
(`CFTimeInterval`, set to `0.0` and only passed through to
`FSEventStreamCreate`) is omitted: no embedded operation reads it. -/
structure FsEventWatcher where
  paths : List String
  since_when : Nat
  flags : Nat
  sender : Nat
  runloop : Option Nat
  context : Option StreamContextInfo
  deriving DecidableEq, Repr

/-- `fs::kFSEventStreamEventIdSinceNow` (`u64::MAX`). -/
def kFSEventStreamEventIdSinceNow : Nat := 0xFFFFFFFFFFFFFFFF

/-- `fs::kFSEventStreamCreateFlagNoDefer`. -/
def kFSEventStreamCreateFlagNoDefer : Nat := 0x00000002

/-- `fs::kFSEventStreamCreateFlagFileEvents`. -/
def kFSEventStreamCreateFlagFileEvents : Nat := 0x00000010

/-- `Watcher::new for FsEventWatcher` (fsevent.rs:197-207): empty path
array, "since now" baseline, file-events and no-defer creation flags, no
runloop, no context.  The Rust function returns `Ok(...)`
unconditionally. -/
def newWatcher (tx : Nat) : FsEventWatcher :=
  { paths := []
    since_when := kFSEventStreamEventIdSinceNow
    flags := kFSEventStreamCreateFlagFileEvents ||| kFSEventStreamCreateFlagNoDefer
    sender := tx
    runloop := none
    context := none }

/-- `FsEventWatcher::is_running` (fsevent.rs:56-58). -/
def is_running (s : FsEventWatcher) : Bool := s.runloop.isSome

/-- `FsEventWatcher::stop` (fsevent.rs:60-82).  Early-returns when no
runloop is held; otherwise signals `CFRunLoopStop`, clears `runloop`,
blocks on the `done` channel when a context is held, and clears `context`.
The returned Boolean records whether the blocking `done.recv()` was
performed. -/
def stop (s : FsEventWatcher) : FsEventWatcher × Bool :=
  if s.runloop.isNone then (s, false)
  else ({ s with runloop := none, context := none }, s.context.isSome)

/-- `CFStringCompare(_, _, kCFCompareCaseInsensitive) == kCFCompareEqualTo`,
modelled as equality of lower-cased character sequences. -/
def ciEq (a b : String) : Bool :=
  a.data.map Char.toLower == b.data.map Char.toLower

/-- The loop body of `FsEventWatcher::remove_path` (fsevent.rs:88-93):
`for idx in 0 .. CFArrayGetCount(self.paths)` with the count taken once —
the `fuel` argument counts the remaining iterations — removing in place at
`idx` on a case-insensitive match.  `CFArrayGetValueAtIndex` at an index
at or past the current count is undefined behaviour, modelled as
`none`. -/
def removeLoop (target : String) (idx : Nat) (l : List String) :
    Nat → Option (List String)
  | 0 => some l
  | fuel + 1 =>
    if h : idx < l.length then
      if ciEq (l.get ⟨idx, h⟩) target then
        removeLoop target (idx + 1) (l.eraseIdx idx) fuel
      else
        removeLoop target (idx + 1) l fuel
    else
      none

/-- `FsEventWatcher::remove_path` (fsevent.rs:84-95): remove watched paths
case-insensitively equal to `source`.  `none` marks the out-of-bounds
CF-array access the source performs once an element has been removed at a
non-final index. -/
def remove_path (s : FsEventWatcher) (source : String) :
    Option FsEventWatcher :=
  (removeLoop source 0 s.paths s.paths.length).map
    (fun l => { s with paths := l })

/-- `FsEventWatcher::append_path` (fsevent.rs:98-104): unconditionally
`CFArrayAppendValue` the path. -/
def append_path (s : FsEventWatcher) (source : String) : FsEventWatcher :=
  { s with paths := s.paths ++ [source] }

/-- The address of the background thread's `CFRunLoop`, received over the
rendezvous channel in `run`.  Its numeric value never influences control
flow; the model fixes it to `0`. -/
def runloopHandle : Nat := 0

/-- `FsEventWatcher::run` (fsevent.rs:106-162): fail with `PathNotFound`
on an empty path array; otherwise store a fresh `StreamContextInfo`
(holding a clone of the outbound sender), create and schedule the stream
on a spawned thread's run loop, and block on the rendezvous channel until
the thread sends its run-loop handle, which is stored in `runloop`. -/
def run (s : FsEventWatcher) : FsEventWatcher × Except Error Unit :=
  if s.paths.length = 0 then (s, .error .PathNotFound)
  else
    ({ s with
        context := some { sender := s.sender }
        runloop := some runloopHandle }, .ok ())

/-- `FsEventWatcher::watch` (fsevent.rs:209-213): stop, append the path,
run. -/
def watch (s : FsEventWatcher) (path : String) :
    FsEventWatcher × Except Error Unit :=
  run (append_path (stop s).1 path)

/-- `FsEventWatcher::unwatch` (fsevent.rs:215-221): stop, remove the path,
run with the result discarded ("may be empty path list"), return `Ok`.
`none` propagates the undefined behaviour of `remove_path`. -/
def unwatch (s : FsEventWatcher) (path : String) :
    Option (FsEventWatcher × Except Error Unit) :=
  (remove_path (stop s).1 path).map (fun s1 => ((run s1).1, Except.ok ()))

/-! ### The callback -/

/-- One raw record of a callback batch: the path's C-string bytes, the raw
`u32` flag word and the `u64` event id (informational only). -/
structure RawEvent where
  path : List UInt8
  flags : Nat
  id : Nat
  deriving DecidableEq, Repr

/-- `fse::StreamFlags::from_bits`: `some` exactly when no bit outside the
named `StreamFlags` constants is set. -/
def streamFlagsFromBits (raw : Nat) : Option Nat :=
  if raw &&& streamFlagsAll == raw then some raw else none

/-- Whether `b` is a UTF-8 continuation byte within `[lo, hi]`. -/
def utf8ContOk (lo hi : Nat) (b : UInt8) : Bool :=
  lo ≤ b.toNat && b.toNat ≤ hi

/-- The payload bits of a UTF-8 continuation byte. -/
def utf8ContBits (b : UInt8) : Nat := b.toNat &&& 0x3F

/-- The admissible range of the first continuation byte after the leading
byte `n0` of a multi-byte UTF-8 sequence (RFC 3629: rejects overlong
forms, surrogates and code points above `0x10FFFF`, exactly as Rust's
`std::str::from_utf8` does). -/
def utf8FirstContRange (n0 : Nat) : Nat × Nat :=
  if n0 = 0xE0 then (0xA0, 0xBF)
  else if n0 = 0xED then (0x80, 0x9F)
  else if n0 = 0xF0 then (0x90, 0xBF)
  else if n0 = 0xF4 then (0x80, 0x8F)
  else (0x80, 0xBF)

/-- `std::str::from_utf8` of the Rust standard library (an external
dependency of the callback), embedded as a structural decoder: `some`
exactly on valid UTF-8, yielding the decoded characters. -/
def utf8Decode : List UInt8 → Option (List Char)
  | [] => some []
  | b0 :: rest =>
    let n0 := b0.toNat
    if n0 ≤ 0x7F then
      (utf8Decode rest).map (fun cs => Char.ofNat n0 :: cs)
    else if 0xC2 ≤ n0 && n0 ≤ 0xDF then
      match rest with
      | b1 :: rest1 =>
        if utf8ContOk 0x80 0xBF b1 then
          (utf8Decode rest1).map (fun cs =>
            Char.ofNat ((n0 &&& 0x1F) <<< 6 ||| utf8ContBits b1) :: cs)
        else none
      | [] => none
    else if 0xE0 ≤ n0 && n0 ≤ 0xEF then
      match rest with
      | b1 :: b2 :: rest2 =>
        let r := utf8FirstContRange n0
        if utf8ContOk r.1 r.2 b1 && utf8ContOk 0x80 0xBF b2 then
          (utf8Decode rest2).map (fun cs =>
            Char.ofNat ((n0 &&& 0x0F) <<< 12 ||| utf8ContBits b1 <<< 6 |||
              utf8ContBits b2) :: cs)
        else none
      | _ => none
    else if 0xF0 ≤ n0 && n0 ≤ 0xF4 then
      match rest with
      | b1 :: b2 :: b3 :: rest3 =>
        let r := utf8FirstContRange n0
        if utf8ContOk r.1 r.2 b1 && utf8ContOk 0x80 0xBF b2 &&
            utf8ContOk 0x80 0xBF b3 then
          (utf8Decode rest3).map (fun cs =>
            Char.ofNat ((n0 &&& 0x07) <<< 18 ||| utf8ContBits b1 <<< 12 |||
              utf8ContBits b2 <<< 6 ||| utf8ContBits b3) :: cs)
        else none
      | _ => none
    else none

/-- Decoding of one raw record by the callback body (fsevent.rs:183-191):
decode the flag word (`expect` aborts on unrecognized bits), decode the
path bytes as UTF-8 (`expect` aborts on invalid UTF-8), and build the
event.  `none` is the abort. -/
def processRecord (e : RawEvent) : Option Event := do
  let flag ← streamFlagsFromBits e.flags
  let cs ← utf8Decode e.path
  pure { op := .ok (translate_flags flag), path := some ⟨cs⟩ }

/-- `callback` (fsevent.rs:166-193): process the batch in delivered order,
sending each decoded event on the context's sender.  Returns the list of
events sent, in order, and whether the callback aborted (panicked) on a
record that failed to decode. -/
def callback (info : StreamContextInfo) (events : List RawEvent) :
    List Event × Bool :=
  match events with
  | [] => ([], false)
  | e :: rest =>
    match processRecord e with
    | none => ([], true)
    | some ev =>
      let tl := callback info rest
      (ev :: tl.1, tl.2)

/-- The number of entries of a watched-path collection that match `p`
under the case-insensitive comparison. -/
def countCI (l : List String) (p : String) : Nat :=
  l.countP (fun q => ciEq q p)

/-- The event the callback constructs and sends for a record that decodes
successfully (fsevent.rs:189):
`Event { op: Ok(translate_flags(flag)), path: Some(path) }`. -/
def sentEvent (e : RawEvent) : Event :=
  { op := .ok (translate_flags e.flags)
    path := (utf8Decode e.path).map (fun cs => (⟨cs⟩ : String)) }

/-- Whether a raw record decodes successfully: recognized flag bits and
valid UTF-8 path bytes. -/
def recordOk (e : RawEvent) : Bool :=
  (streamFlagsFromBits e.flags).isSome && (utf8Decode e.path).isSome

/-- The union of the five native flag bits that `translate_flags` tests. -/
def relevantFlagsMask : Nat :=
  ITEM_XATTR_MOD ||| ITEM_CREATED ||| ITEM_REMOVED ||| ITEM_RENAMED |||
    ITEM_MODIFIED

/-- The five native-flag constants `translate_flags` tests, paired with
the operation kind each one yields. -/
def fiveFlags : List (Nat × OpKind) :=
  [(ITEM_XATTR_MOD, .chmod), (ITEM_CREATED, .create),
   (ITEM_REMOVED, .remove), (ITEM_RENAMED, .rename),
   (ITEM_MODIFIED, .write)]

/-! ### Reachable states -/

/-- States reachable through the public operations (`new`, `run`, `stop`,
`watch`, `unwatch`); an `unwatch` that hits the undefined-behaviour branch
produces no state. -/
inductive Reachable : FsEventWatcher → Prop where
  | of_new (tx : Nat) : Reachable (newWatcher tx)
  | of_run {s : FsEventWatcher} : Reachable s → Reachable (run s).1
  | of_stop {s : FsEventWatcher} : Reachable s → Reachable (stop s).1
  | of_watch {s : FsEventWatcher} (p : String) :
      Reachable s → Reachable (watch s p).1
  | of_unwatch {s : FsEventWatcher} (p : String)
      {r : FsEventWatcher × Except Error Unit} :
      Reachable s → unwatch s p = some r → Reachable r.1

/-! ### Helper lemmas -/

theorem ciEq_self (p : String) : ciEq p p = true := by
  simp [ciEq]

theorem stop_paths (s : FsEventWatcher) : (stop s).1.paths = s.paths := by
  unfold stop; split <;> rfl

theorem stop_sender (s : FsEventWatcher) : (stop s).1.sender = s.sender := by
  unfold stop; split <;> rfl

theorem stop_runloop_none (s : FsEventWatcher) :
    (stop s).1.runloop = none := by
  unfold stop
  split
  · next h => exact Option.isNone_iff_eq_none.mp h
  · rfl

theorem run_paths (s : FsEventWatcher) : (run s).1.paths = s.paths := by
  unfold run; split <;> rfl

theorem run_of_empty {s : FsEventWatcher} (h : s.paths = []) :
    run s = (s, .error .PathNotFound) := by
  unfold run
  simp [h]

theorem run_of_ne_empty {s : FsEventWatcher} (h : s.paths ≠ []) :
    run s =
      ({ s with context := some { sender := s.sender }
                runloop := some runloopHandle }, .ok ()) := by
  unfold run
  simp [List.length_eq_zero, h]

theorem watch_paths (s : FsEventWatcher) (p : String) :
    (watch s p).1.paths = s.paths ++ [p] := by
  show (run (append_path (stop s).1 p)).1.paths = _
  rw [run_paths]
  show (stop s).1.paths ++ [p] = _
  rw [stop_paths]

theorem remove_path_fields {s s1 : FsEventWatcher} {p : String}
    (h : remove_path s p = some s1) :
    s1.runloop = s.runloop ∧ s1.context = s.context ∧
      s1.sender = s.sender := by
  unfold remove_path at h
  rcases hl : removeLoop p 0 s.paths s.paths.length with _ | l
  · rw [hl] at h; exact Option.noConfusion h
  · rw [hl] at h
    cases h
    exact ⟨rfl, rfl, rfl⟩

theorem stop_of_not_running {s : FsEventWatcher} (h : s.runloop = none) :
    stop s = (s, false) := by
  unfold stop
  simp [h]

theorem removeLoop_singleton (p q : String) (h : ciEq q p = true) :
    removeLoop p 0 [q] 1 = some [] := by
  simp [removeLoop, h]

theorem unwatch_of_removed_empty {s s1 : FsEventWatcher} {p : String}
    (hrm : remove_path (stop s).1 p = some s1) (hempty : s1.paths = []) :
    unwatch s p = some (s1, .ok ()) ∧ is_running s1 = false := by
  constructor
  · unfold unwatch
    rw [hrm]
    show some ((run s1).1, Except.ok ()) = some (s1, Except.ok ())
    rw [run_of_empty hempty]
  · show s1.runloop.isSome = false
    rw [(remove_path_fields hrm).1, stop_runloop_none]
    rfl

theorem land_eq_zero_of_land_mask {f M c : Nat} (hf : f &&& M = 0)
    (hc : M &&& c = c) : f &&& c = 0 := by
  calc f &&& c = f &&& (M &&& c) := by rw [hc]
    _ = f &&& M &&& c := (Nat.land_assoc f M c).symm
    _ = 0 &&& c := by rw [hf]
    _ = 0 := Nat.zero_and c

theorem stop_cleared_of_inv {s : FsEventWatcher}
    (h : s.runloop.isSome = s.context.isSome) :
    (stop s).1.runloop = none ∧ (stop s).1.context = none := by
  unfold stop
  split
  · next hn =>
    rw [Option.isNone_iff_eq_none] at hn
    refine ⟨hn, ?_⟩
    rw [hn] at h
    simpa [Option.isSome_iff_ne_none] using h.symm
  · exact ⟨rfl, rfl⟩

theorem run_inv {s : FsEventWatcher}
    (h : s.runloop.isSome = s.context.isSome) :
    (run s).1.runloop.isSome = (run s).1.context.isSome := by
  rcases hp : s.paths with _ | ⟨a, l⟩
  · rw [run_of_empty hp]; exact h
  · rw [run_of_ne_empty (by rw [hp]; exact List.cons_ne_nil a l)]; rfl

theorem stop_inv {s : FsEventWatcher}
    (h : s.runloop.isSome = s.context.isSome) :
    (stop s).1.runloop.isSome = (stop s).1.context.isSome := by
  obtain ⟨h1, h2⟩ := stop_cleared_of_inv h
  rw [h1, h2]
  rfl

theorem watch_inv (s : FsEventWatcher) (p : String) :
    (watch s p).1.runloop.isSome = (watch s p).1.context.isSome := by
  have hw : watch s p = run (append_path (stop s).1 p) := rfl
  rw [hw, run_of_ne_empty (by simp [append_path])]
  rfl

theorem unwatch_inv {s : FsEventWatcher} {p : String}
    {r : FsEventWatcher × Except Error Unit}
    (h : s.runloop.isSome = s.context.isSome)
    (hu : unwatch s p = some r) :
    r.1.runloop.isSome = r.1.context.isSome := by
  unfold unwatch at hu
  rcases hrm : remove_path (stop s).1 p with _ | s1
  · rw [hrm] at hu; exact Option.noConfusion hu
  · rw [hrm] at hu
    cases hu
    apply run_inv
    obtain ⟨hrl, hctx, _⟩ := remove_path_fields hrm
    obtain ⟨h1, h2⟩ := stop_cleared_of_inv h
    rw [hrl, hctx, h1, h2]
    rfl

theorem streamFlagsFromBits_eq_some {raw x : Nat}
    (h : streamFlagsFromBits raw = some x) : x = raw := by
  unfold streamFlagsFromBits at h
  split at h
  · cases h; rfl
  · exact Option.noConfusion h

theorem processRecord_of_ok {e : RawEvent} (h : recordOk e = true) :
    processRecord e = some (sentEvent e) := by
  unfold recordOk at h
  rw [Bool.and_eq_true] at h
  obtain ⟨h1, h2⟩ := h
  rcases hf : streamFlagsFromBits e.flags with _ | f
  · rw [hf] at h1; exact absurd h1 (by simp)
  · rcases hd : utf8Decode e.path with _ | cs
    · rw [hd] at h2; exact absurd h2 (by simp)
    · have hfe : f = e.flags := streamFlagsFromBits_eq_some hf
      simp [processRecord, hf, hd, sentEvent, hfe]

theorem processRecord_of_bad {e : RawEvent} (h : recordOk e = false) :
    processRecord e = none := by
  rcases hf : streamFlagsFromBits e.flags with _ | f
  · simp [processRecord, hf]
  · rcases hd : utf8Decode e.path with _ | cs
    · simp [processRecord, hf, hd]
    · rw [recordOk, hf, hd] at h
      exact absurd h (by simp)

theorem callback_all_ok (info : StreamContextInfo) {events : List RawEvent}
    (h : ∀ e ∈ events, recordOk e = true) :
    callback info events = (events.map sentEvent, false) := by
  induction events with
  | nil => rfl
  | cons e rest ih =>
    have he := h e (List.mem_cons_self e rest)
    have hrest : ∀ x ∈ rest, recordOk x = true :=
      fun x hx => h x (List.mem_cons_of_mem e hx)
    simp [callback, processRecord_of_ok he, ih hrest]

theorem callback_aborts (info : StreamContextInfo) {good : List RawEvent}
    (bad : RawEvent) (rest : List RawEvent)
    (hg : ∀ e ∈ good, recordOk e = true) (hb : recordOk bad = false) :
    callback info (good ++ bad :: rest) = (good.map sentEvent, true) := by
  induction good with
  | nil =>
    simp only [List.nil_append]
    simp [callback, processRecord_of_bad hb]
  | cons e g ih =>
    have he := hg e (List.mem_cons_self e g)
    have hg' : ∀ x ∈ g, recordOk x = true :=
      fun x hx => hg x (List.mem_cons_of_mem e hx)
    simp [callback, processRecord_of_ok he, ih hg']

/-! ### Claims -/

/-- C1 counterexample: watching `"/tmp/x"` and then the case-insensitively
equal `"/TMP/x"` does not leave the collection unchanged — `append_path`
has no duplicate check — and afterwards two entries match `"/tmp/x"`
case-insensitively, not exactly one. -/
theorem c1_counterexample :
    (watch (watch (newWatcher 0) "/tmp/x").1 "/TMP/x").1.paths ≠
        (watch (newWatcher 0) "/tmp/x").1.paths ∧
      countCI (watch (watch (newWatcher 0) "/tmp/x").1 "/TMP/x").1.paths
        "/tmp/x" = 2 := by
  decide

/-- C1 (amended): `add_path`/`watch` append the path unconditionally, so
adding a path that case-insensitively matches an existing entry grows the
collection by one entry and leaves at least two entries matching that
path. -/
theorem c1_watch_appends_duplicate (s : FsEventWatcher) (p q : String)
    (hq : q ∈ s.paths) (hci : ciEq q p = true) :
    (watch s p).1.paths = s.paths ++ [p] ∧
      2 ≤ countCI (watch s p).1.paths p := by
  refine ⟨watch_paths s p, ?_⟩
  rw [watch_paths, countCI, List.countP_append]
  have h1 : 0 < s.paths.countP (fun q => ciEq q p) :=
    List.countP_pos_iff.mpr ⟨q, hq, hci⟩
  have h2 : List.countP (fun q => ciEq q p) [p] = 1 := by
    simp [ciEq_self]
  omega

/-- C1 witness: the amended statement at the collection `["/tmp/x"]` and
the added path `"/TMP/x"`. -/
theorem c1_watch_appends_duplicate_witness :
    ("/tmp/x" ∈
        ({ newWatcher 0 with paths := ["/tmp/x"] } : FsEventWatcher).paths) ∧
      ciEq "/tmp/x" "/TMP/x" = true ∧
      ((watch { newWatcher 0 with paths := ["/tmp/x"] } "/TMP/x").1.paths =
          ({ newWatcher 0 with
              paths := ["/tmp/x"] } : FsEventWatcher).paths ++ ["/TMP/x"] ∧
        2 ≤ countCI
          (watch { newWatcher 0 with paths := ["/tmp/x"] } "/TMP/x").1.paths
          "/TMP/x") :=
  ⟨by decide, by decide,
    c1_watch_appends_duplicate _ "/TMP/x" "/tmp/x" (by decide) (by decide)⟩

/-- C2: evaluation of `remove_path` at concrete inputs.  With watched
paths `["/tmp/a", "/tmp/b"]`, removing `"/tmp/a"` hits the
undefined-behaviour branch (`none`): after the removal at index 0 the loop,
bounded by the original count, reads index 1 of the now one-element array.
Removing an unmatched `"/tmp/c"` is a silent no-op, and removing
`"/tmp/a"` when it is the final entry works, returning `["/tmp/b"]`. -/
theorem c2_remove_path_eval :
    remove_path { newWatcher 0 with paths := ["/tmp/a", "/tmp/b"] }
        "/tmp/a" = none ∧
      (remove_path { newWatcher 0 with paths := ["/tmp/a", "/tmp/b"] }
          "/tmp/c").map FsEventWatcher.paths = some ["/tmp/a", "/tmp/b"] ∧
      (remove_path { newWatcher 0 with paths := ["/tmp/b", "/tmp/a"] }
          "/tmp/a").map FsEventWatcher.paths = some ["/tmp/b"] := by
  decide

/-- C3: on a non-empty watched-path collection `run` returns `Ok` and
`is_running` becomes true; on the empty collection `run` returns
`Err(PathNotFound)` and leaves the state — in particular `is_running` —
unchanged, so a non-running watcher stays non-running. -/
theorem c3_run_empty_nonempty (s : FsEventWatcher) :
    (s.paths ≠ [] → (run s).2 = .ok () ∧ is_running (run s).1 = true) ∧
      (s.paths = [] → run s = (s, .error .PathNotFound) ∧
        is_running (run s).1 = is_running s) := by
  constructor
  · intro h
    rw [run_of_ne_empty h]
    simp [is_running]
  · intro h
    rw [run_of_empty h]
    exact ⟨rfl, rfl⟩

/-- C3 witness: the non-empty branch at the collection `["/a"]` and the
empty branch at a fresh watcher. -/
theorem c3_run_empty_nonempty_witness :
    (({ newWatcher 0 with paths := ["/a"] } : FsEventWatcher).paths ≠ [] ∧
        ((run { newWatcher 0 with paths := ["/a"] }).2 = .ok () ∧
          is_running (run { newWatcher 0 with paths := ["/a"] }).1 = true)) ∧
      ((newWatcher 0).paths = [] ∧
        (run (newWatcher 0) = (newWatcher 0, .error .PathNotFound) ∧
          is_running (run (newWatcher 0)).1 = is_running (newWatcher 0))) :=
  ⟨⟨by decide, (c3_run_empty_nonempty _).1 (by decide)⟩,
    ⟨rfl, (c3_run_empty_nonempty _).2 rfl⟩⟩

/-- C5: `watch` is exactly stop, then `append_path`, then `run`, and since
the append leaves the collection non-empty, `watch` always returns `Ok` —
never `PathNotFound`. -/
theorem c5_watch_never_path_not_found (s : FsEventWatcher) (p : String) :
    watch s p = run (append_path (stop s).1 p) ∧
      (watch s p).2 = .ok () := by
  refine ⟨rfl, ?_⟩
  have h : (append_path (stop s).1 p).paths ≠ [] := by
    simp [append_path]
  show (run (append_path (stop s).1 p)).2 = _
  rw [run_of_ne_empty h]

/-- C4: under the session invariant (runloop held iff context held),
`stop` clears the session state (runloop and context); a second `stop` in
a row returns the state unchanged without performing the blocking
`done.recv()`, and `stop` on a non-running watcher is likewise a
non-blocking no-op. -/
theorem c4_stop_idempotent (s : FsEventWatcher)
    (hinv : s.runloop.isSome = s.context.isSome) :
    ((stop s).1.runloop = none ∧ (stop s).1.context = none) ∧
      stop (stop s).1 = ((stop s).1, false) ∧
      (is_running s = false → stop s = (s, false)) := by
  refine ⟨stop_cleared_of_inv hinv,
    stop_of_not_running (stop_runloop_none s), ?_⟩
  intro h
  rcases hr : s.runloop with _ | v
  · exact stop_of_not_running hr
  · rw [is_running, hr] at h
    simp at h

/-- C4 witness: the statement at a running watcher obtained by watching
`"/a"` from a fresh one. -/
theorem c4_stop_idempotent_witness :
    ((watch (newWatcher 0) "/a").1.runloop.isSome =
        (watch (newWatcher 0) "/a").1.context.isSome) ∧
      (((stop (watch (newWatcher 0) "/a").1).1.runloop = none ∧
          (stop (watch (newWatcher 0) "/a").1).1.context = none) ∧
        stop (stop (watch (newWatcher 0) "/a").1).1 =
          ((stop (watch (newWatcher 0) "/a").1).1, false) ∧
        (is_running (watch (newWatcher 0) "/a").1 = false →
          stop (watch (newWatcher 0) "/a").1 =
            ((watch (newWatcher 0) "/a").1, false))) :=
  ⟨by decide, c4_stop_idempotent _ (by decide)⟩

/-- C6: `unwatch` is stop, then `remove_path`, then a restart whose
result is discarded.  Whenever the removal leaves the collection empty,
`unwatch` returns `Ok` (the `PathNotFound` of the restart is swallowed)
and the watcher is idle; in particular `watch p` immediately followed by
`unwatch p` on a watcher with an empty collection returns `Ok` twice and
ends idle with an empty collection, and neither call aborts. -/
theorem c6_unwatch_last_path_idle :
    (∀ (s s1 : FsEventWatcher) (p : String),
        remove_path (stop s).1 p = some s1 → s1.paths = [] →
        unwatch s p = some (s1, .ok ()) ∧ is_running s1 = false) ∧
      (∀ (s : FsEventWatcher) (p : String), s.paths = [] →
        (watch s p).2 = .ok () ∧
          ∃ u, unwatch (watch s p).1 p = some (u, .ok ()) ∧
            is_running u = false ∧ u.paths = []) := by
  constructor
  · intro s s1 p hrm hempty
    exact unwatch_of_removed_empty hrm hempty
  · intro s p h
    have hwp : (watch s p).1.paths = [p] := by
      rw [watch_paths, h]; rfl
    refine ⟨?_, ?_⟩
    · show (run (append_path (stop s).1 p)).2 = _
      rw [run_of_ne_empty (by simp [append_path])]
    · have hswp : (stop (watch s p).1).1.paths = [p] := by
        rw [stop_paths]; exact hwp
      have hrm : remove_path (stop (watch s p).1).1 p =
          some { (stop (watch s p).1).1 with paths := ([] : List String) } := by
        unfold remove_path
        rw [hswp]
        show (removeLoop p 0 [p] 1).map _ = _
        rw [removeLoop_singleton p p (ciEq_self p)]
        rfl
      obtain ⟨h1, h2⟩ := unwatch_of_removed_empty hrm rfl
      exact ⟨_, h1, h2, rfl⟩

/-- C6 witness: the removal branch at a non-running watcher holding
`["/a"]` and unwatching the case-insensitively equal `"/A"`, and the
`watch`-then-`unwatch` round trip at a fresh watcher and `"/tmp/x"`. -/
theorem c6_unwatch_last_path_idle_witness :
    (remove_path (stop { newWatcher 0 with paths := ["/a"] }).1 "/A" =
        some { newWatcher 0 with paths := ([] : List String) } ∧
      ({ newWatcher 0 with
          paths := ([] : List String) } : FsEventWatcher).paths = [] ∧
      (unwatch { newWatcher 0 with paths := ["/a"] } "/A" =
          some ({ newWatcher 0 with paths := ([] : List String) },
            .ok ()) ∧
        is_running
          ({ newWatcher 0 with
              paths := ([] : List String) } : FsEventWatcher) = false)) ∧
      ((newWatcher 0).paths = [] ∧
        ((watch (newWatcher 0) "/tmp/x").2 = .ok () ∧
          ∃ u, unwatch (watch (newWatcher 0) "/tmp/x").1 "/tmp/x" =
              some (u, .ok ()) ∧
            is_running u = false ∧ u.paths = [])) :=
  ⟨⟨by decide, by decide,
      c6_unwatch_last_path_idle.1 _ _ "/A" (by decide) (by decide)⟩,
    ⟨rfl, c6_unwatch_last_path_idle.2 _ "/tmp/x" rfl⟩⟩

/-- C7: each of the five native-flag constants translates to exactly its
one corresponding `Op` bit; translating the union of any two of them
yields the union of their translations; and a flag word containing none
of the five bits translates to the empty `Op` set. -/
theorem c7_translate_flags :
    (∀ fc ∈ fiveFlags, translate_flags fc.1 = Op.single fc.2) ∧
      (∀ fc1 ∈ fiveFlags, ∀ fc2 ∈ fiveFlags,
        translate_flags (fc1.1 ||| fc2.1) =
          Op.union (translate_flags fc1.1) (translate_flags fc2.1)) ∧
      (∀ flags : Nat, flags &&& relevantFlagsMask = 0 →
        translate_flags flags = Op.empty) := by
  refine ⟨by decide, by decide, ?_⟩
  intro flags h
  have h1 : containsFlag flags ITEM_XATTR_MOD = false := by
    unfold containsFlag
    rw [land_eq_zero_of_land_mask h (by decide)]
    decide
  have h2 : containsFlag flags ITEM_CREATED = false := by
    unfold containsFlag
    rw [land_eq_zero_of_land_mask h (by decide)]
    decide
  have h3 : containsFlag flags ITEM_REMOVED = false := by
    unfold containsFlag
    rw [land_eq_zero_of_land_mask h (by decide)]
    decide
  have h4 : containsFlag flags ITEM_RENAMED = false := by
    unfold containsFlag
    rw [land_eq_zero_of_land_mask h (by decide)]
    decide
  have h5 : containsFlag flags ITEM_MODIFIED = false := by
    unfold containsFlag
    rw [land_eq_zero_of_land_mask h (by decide)]
    decide
  simp [translate_flags, h1, h2, h3, h4, h5]

/-- C7 witness: a single constant, a pair of constants, and the ignored
flag bit `IS_SYMLINK`. -/
theorem c7_translate_flags_witness :
    ((ITEM_CREATED, OpKind.create) ∈ fiveFlags ∧
        translate_flags ITEM_CREATED = Op.single OpKind.create) ∧
      ((ITEM_CREATED, OpKind.create) ∈ fiveFlags ∧
        (ITEM_REMOVED, OpKind.remove) ∈ fiveFlags ∧
        translate_flags (ITEM_CREATED ||| ITEM_REMOVED) =
          Op.union (translate_flags ITEM_CREATED)
            (translate_flags ITEM_REMOVED)) ∧
      (IS_SYMLINK &&& relevantFlagsMask = 0 ∧
        translate_flags IS_SYMLINK = Op.empty) :=
  ⟨⟨by decide,
      c7_translate_flags.1 (ITEM_CREATED, OpKind.create) (by decide)⟩,
    ⟨by decide, by decide,
      c7_translate_flags.2.1 (ITEM_CREATED, OpKind.create) (by decide)
        (ITEM_REMOVED, OpKind.remove) (by decide)⟩,
    ⟨by decide, c7_translate_flags.2.2 IS_SYMLINK (by decide)⟩⟩

/-- C8: when every record of a batch decodes, the callback sends exactly
one event per record, in delivered order, each of the form
`Event { op: Ok(translate_flags flags), path: Some(decoded path) }`; when
a record fails to decode (unrecognized flag bits or invalid UTF-8 path
bytes), the callback sends the events of the preceding records and then
aborts, processing nothing further. -/
theorem c8_callback_order_abort :
    (∀ (info : StreamContextInfo) (events : List RawEvent),
        (∀ e ∈ events, recordOk e = true) →
        callback info events = (events.map sentEvent, false)) ∧
      (∀ (info : StreamContextInfo) (good : List RawEvent) (bad : RawEvent)
          (rest : List RawEvent),
        (∀ e ∈ good, recordOk e = true) → recordOk bad = false →
        callback info (good ++ bad :: rest) = (good.map sentEvent, true)) ∧
      (∀ e : RawEvent, recordOk e = true →
        processRecord e = some (sentEvent e) ∧
          ∃ cs, utf8Decode e.path = some cs ∧
            sentEvent e = { op := .ok (translate_flags e.flags),
                            path := some (⟨cs⟩ : String) }) := by
  refine ⟨fun info events h => callback_all_ok info h,
    fun info good bad rest hg hb => callback_aborts info bad rest hg hb,
    fun e h => ⟨processRecord_of_ok h, ?_⟩⟩
  have h2 : (utf8Decode e.path).isSome = true := by
    unfold recordOk at h
    exact (Bool.and_eq_true .. ▸ h).2
  rcases hd : utf8Decode e.path with _ | cs
  · rw [hd] at h2; exact absurd h2 (by simp)
  · exact ⟨cs, rfl, by simp [sentEvent, hd]⟩

/-- C8 witness: a batch of two valid records, and a batch whose second
record has invalid UTF-8 path bytes, which loses the third record. -/
theorem c8_callback_order_abort_witness :
    ((∀ e ∈ [(⟨[97], 0x100, 1⟩ : RawEvent), ⟨[98, 99], 0x200, 2⟩],
        recordOk e = true) ∧
      callback ⟨0⟩ [(⟨[97], 0x100, 1⟩ : RawEvent), ⟨[98, 99], 0x200, 2⟩] =
        ([(⟨[97], 0x100, 1⟩ : RawEvent), ⟨[98, 99], 0x200, 2⟩].map sentEvent,
          false)) ∧
      ((∀ e ∈ [(⟨[97], 0x100, 1⟩ : RawEvent)], recordOk e = true) ∧
        recordOk ⟨[0xFF], 0x100, 2⟩ = false ∧
        callback ⟨0⟩
            ([(⟨[97], 0x100, 1⟩ : RawEvent)] ++
              (⟨[0xFF], 0x100, 2⟩ : RawEvent) :: [⟨[98], 0x200, 3⟩]) =
          ([(⟨[97], 0x100, 1⟩ : RawEvent)].map sentEvent, true)) ∧
      (recordOk ⟨[97], 0x100, 1⟩ = true ∧
        processRecord ⟨[97], 0x100, 1⟩ = some (sentEvent ⟨[97], 0x100, 1⟩) ∧
        ∃ cs, utf8Decode ([97] : List UInt8) = some cs ∧
          sentEvent ⟨[97], 0x100, 1⟩ =
            { op := .ok (translate_flags 0x100),
              path := some (⟨cs⟩ : String) }) :=
  ⟨⟨by decide, c8_callback_order_abort.1 ⟨0⟩ _ (by decide)⟩,
    ⟨by decide, by decide,
      c8_callback_order_abort.2.1 ⟨0⟩ _ ⟨[0xFF], 0x100, 2⟩ _ (by decide)
        (by decide)⟩,
    ⟨by decide, c8_callback_order_abort.2.2 ⟨[97], 0x100, 1⟩ (by decide)⟩⟩

/-- C9: the start-session operation `run` never modifies the watched-path
collection; hence after `watch` the collection is exactly what
`append_path` left, and after an `unwatch` that does not hit the
undefined-behaviour branch it is exactly what `remove_path` left, whether
or not the restart failed. -/
theorem c9_run_preserves_paths (s : FsEventWatcher) (p : String) :
    (run s).1.paths = s.paths ∧
      (watch s p).1.paths = (append_path (stop s).1 p).paths ∧
      (∀ (s1 : FsEventWatcher) (r : FsEventWatcher × Except Error Unit),
        remove_path (stop s).1 p = some s1 → unwatch s p = some r →
          r.1.paths = s1.paths) := by
  refine ⟨run_paths s, ?_, ?_⟩
  · show (run (append_path (stop s).1 p)).1.paths = _
    exact run_paths _
  · intro s1 r hrm hu
    unfold unwatch at hu
    rw [hrm] at hu
    cases hu
    exact run_paths s1

/-- C9 witness: the `unwatch` branch at a watcher holding `["/a"]` and the
path `"/A"`, whose restart fails with `PathNotFound` and is discarded. -/
theorem c9_run_preserves_paths_witness :
    (run { newWatcher 0 with paths := ["/a"] }).1.paths =
        ({ newWatcher 0 with paths := ["/a"] } : FsEventWatcher).paths ∧
      (remove_path (stop { newWatcher 0 with paths := ["/a"] }).1 "/A" =
          some { newWatcher 0 with paths := ([] : List String) } ∧
        unwatch { newWatcher 0 with paths := ["/a"] } "/A" =
          some ({ newWatcher 0 with paths := ([] : List String) },
            .ok ()) ∧
        ({ newWatcher 0 with paths := ([] : List String) },
            (Except.ok () : Except Error Unit)).1.paths =
          ({ newWatcher 0 with
              paths := ([] : List String) } : FsEventWatcher).paths) :=
  ⟨(c9_run_preserves_paths { newWatcher 0 with paths := ["/a"] } "/A").1,
    by decide, by decide,
    (c9_run_preserves_paths { newWatcher 0 with paths := ["/a"] } "/A").2.2
      { newWatcher 0 with paths := ([] : List String) }
      ({ newWatcher 0 with paths := ([] : List String) }, .ok ())
      (by decide) (by decide)⟩

/-- C10: in every state reachable through the public operations, the
watcher holds a runloop handle exactly when it holds a session context:
`is_running` coincides with the retention of a `StreamContextInfo`. -/
theorem c10_session_invariant (s : FsEventWatcher) (h : Reachable s) :
    s.runloop.isSome = s.context.isSome := by
  induction h with
  | of_new tx => rfl
  | of_run _ ih => exact run_inv ih
  | of_stop _ ih => exact stop_inv ih
  | of_watch p _ _ => exact watch_inv _ p
  | of_unwatch p _ hu ih => exact unwatch_inv ih hu

/-- C10 witness: the invariant at the reachable state obtained by watching
`"/a"` from a fresh watcher. -/
theorem c10_session_invariant_witness :
    (watch (newWatcher 0) "/a").1.runloop.isSome =
      (watch (newWatcher 0) "/a").1.context.isSome :=
  c10_session_invariant _ (Reachable.of_watch "/a" (Reachable.of_new 0))

end RsNotify
